import Mathlib

/-!
Formal model of the napkin backend (FastAPI + Gemini relay).

Python strings are sequences of Unicode code points, so they are modelled
as `List Char` (named `Str` below).  Each definition mirrors one function
or code block of the source under `src/backend/`; the shape-diff validator
of the design spec has no implementation in the repository and is modelled
from the spec (marked as such on its definition).
-/

abbrev Str := List Char

/-- Python whitespace test used by `str.strip()`. -/
def isPySpace (c : Char) : Bool := c.isWhitespace

/-- Python `url.strip()`: drop whitespace from both ends. -/
def pyStrip (l : Str) : Str := ((l.dropWhile isPySpace).reverse.dropWhile isPySpace).reverse

/-- Python `url.rstrip("/")`: drop trailing slashes. -/
def rstripSlash (l : Str) : Str := (l.reverse.dropWhile (fun c => c == '/')).reverse

/-- Splitting a string at every slash (`str.split("/")` semantics:
`splitSlash [] = [[]]`, and each `'/'` starts a new group). -/
def splitSlash : Str → List Str
  | [] => [[]]
  | c :: rest =>
    if c == '/' then [] :: splitSlash rest
    else
      match splitSlash rest with
      | [] => [[c]]
      | g :: gs => (c :: g) :: gs

/-- The effect of the lazy group `([^/]+?)(?:\.git)?$` of the first regex in
`parse_github_url`: one trailing `.git` is stripped provided a non-empty
repo name remains. -/
def stripDotGit (r : Str) : Str :=
  if ".git".data.isSuffixOf r && decide (4 < r.length) then r.take (r.length - 4) else r

/-- The optional `(?:https?://)?` prefix of the first regex of
`parse_github_url`. -/
def dropScheme (u : Str) : Str :=
  if "https://".data.isPrefixOf u then u.drop 8
  else if "http://".data.isPrefixOf u then u.drop 7 else u

/-- The mandatory `github\.com/([^/]+)/([^/]+?)(?:\.git)?$` tail of the
first regex of `parse_github_url` (the remainder must be exactly two
non-empty slash-free segments; one trailing `.git` of the second is
stripped). -/
def githubTail (v : Str) : Option (Str × Str) :=
  if "github.com/".data.isPrefixOf v then
    match splitSlash (v.drop 11) with
    | [owner, repo] =>
      if owner.isEmpty || repo.isEmpty then none else some (owner, stripDotGit repo)
    | _ => none
  else none

/-- First regex of `parse_github_url`:
`(?:https?://)?(?:www\.)?github\.com/([^/]+)/([^/]+?)(?:\.git)?$`.
The optional scheme and `www.` prefixes never overlap the literal
`github.com`, so greedy prefix stripping is equivalent to the regex. -/
def matchGithubUrl (u : Str) : Option (Str × Str) :=
  githubTail
    (if "www.".data.isPrefixOf (dropScheme u) then (dropScheme u).drop 4 else dropScheme u)

/-- Second regex of `parse_github_url`: `^([^/]+)/([^/]+)$` (note: no
`.git` stripping here). -/
def matchOwnerRepo (u : Str) : Option (Str × Str) :=
  match splitSlash u with
  | [a, b] => if a.isEmpty || b.isEmpty then none else some (a, b)
  | _ => none

/-- `github_analyzer.parse_github_url`: returns `(owner, repo)` or `none`
where the Python code raises `ValueError`. -/
def parse_github_url (url : Str) : Option (Str × Str) :=
  let u := rstripSlash (pyStrip url)
  match matchGithubUrl u with
  | some p => some p
  | none => matchOwnerRepo u

/-- The set `_KEY_FILES` of `github_analyzer.py` (architecture-revealing
base filenames; membership only, so a list models the Python set). -/
def _KEY_FILES : List Str :=
  ["package.json".data, "tsconfig.json".data, "vite.config.ts".data, "vite.config.js".data,
   "next.config.js".data, "next.config.ts".data, "next.config.mjs".data,
   "requirements.txt".data, "pyproject.toml".data, "setup.py".data, "Pipfile".data,
   "Cargo.toml".data, "go.mod".data, "build.gradle".data, "pom.xml".data,
   "Dockerfile".data, "docker-compose.yml".data, "docker-compose.yaml".data,
   "Makefile".data, ".env.example".data,
   "README.md".data]

/-- `_MAX_FILE_BYTES = 4000` of `github_analyzer.py`. -/
def _MAX_FILE_BYTES : Nat := 4000

/-- Python `path.rsplit("/", 1)[-1]`: the suffix after the last slash
(the accumulator is reset at every `'/'`). -/
def basename (p : Str) : Str := p.foldl (fun acc c => if c = '/' then [] else acc ++ [c]) []

/-- U+FFFD, emitted by `bytes.decode("utf-8", errors="replace")` for each
maximal invalid subpart. -/
def replChar : Char := Char.ofNat 0xFFFD

/-- Continuation-byte test for UTF-8. -/
def contB (b : Nat) : Bool := 0x80 ≤ b && b ≤ 0xBF

/-- Allowed second byte after a three-byte leader (excludes overlong forms
and surrogates). -/
def cont2ok (b0 b1 : Nat) : Bool :=
  if b0 = 0xE0 then 0xA0 ≤ b1 && b1 ≤ 0xBF
  else if b0 = 0xED then 0x80 ≤ b1 && b1 ≤ 0x9F
  else contB b1

/-- Allowed second byte after a four-byte leader (excludes overlong forms
and code points above U+10FFFF). -/
def cont3ok (b0 b1 : Nat) : Bool :=
  if b0 = 0xF0 then 0x90 ≤ b1 && b1 ≤ 0xBF
  else if b0 = 0xF4 then 0x80 ≤ b1 && b1 ≤ 0x8F
  else contB b1

/-- Python `bytes.decode("utf-8", errors="replace")`: decode UTF-8,
replacing each maximal invalid subpart with U+FFFD. -/
def utf8Decode : List Nat → List Char
  | [] => []
  | b0 :: rest =>
    if b0 < 0x80 then Char.ofNat b0 :: utf8Decode rest
    else if 0xC2 ≤ b0 && b0 ≤ 0xDF then
      match rest with
      | [] => [replChar]
      | b1 :: rest2 =>
        if contB b1 then Char.ofNat ((b0 - 0xC0) * 0x40 + (b1 - 0x80)) :: utf8Decode rest2
        else replChar :: utf8Decode (b1 :: rest2)
    else if 0xE0 ≤ b0 && b0 ≤ 0xEF then
      match rest with
      | [] => [replChar]
      | b1 :: rest2 =>
        if cont2ok b0 b1 then
          match rest2 with
          | [] => [replChar]
          | b2 :: rest3 =>
            if contB b2 then
              Char.ofNat ((b0 - 0xE0) * 0x1000 + (b1 - 0x80) * 0x40 + (b2 - 0x80)) :: utf8Decode rest3
            else replChar :: utf8Decode (b2 :: rest3)
        else replChar :: utf8Decode (b1 :: rest2)
    else if 0xF0 ≤ b0 && b0 ≤ 0xF4 then
      match rest with
      | [] => [replChar]
      | b1 :: rest2 =>
        if cont3ok b0 b1 then
          match rest2 with
          | [] => [replChar]
          | b2 :: rest3 =>
            if contB b2 then
              match rest3 with
              | [] => [replChar]
              | b3 :: rest4 =>
                if contB b3 then
                  Char.ofNat ((b0 - 0xF0) * 0x40000 + (b1 - 0x80) * 0x1000 +
                    (b2 - 0x80) * 0x40 + (b3 - 0x80)) :: utf8Decode rest4
                else replChar :: utf8Decode (b3 :: rest4)
            else replChar :: utf8Decode (b2 :: rest3)
        else replChar :: utf8Decode (b1 :: rest2)
    else replChar :: utf8Decode rest

/-- UTF-8 size, in bytes, of a decoded string (how many bytes the rendered
content occupies). -/
def utf8Len (cs : List Char) : Nat := (cs.map Char.utf8Size).sum

/-- Python `p.count("/")`, the depth measure of the directory listing. -/
def pathDepth (p : Str) : Nat := p.count '/'

/-- Python `"/".join(p.split("/")[:3]) + "/..."`: the collapsed 3-segment
ancestor of a deep path. -/
def collapse3 (p : Str) : Str := List.intercalate "/".data ((splitSlash p).take 3) ++ "/...".data

/-- One iteration of the directory-listing loop of `fetch_repo_context`
(state: `dirs_seen`, `file_list`). -/
def dirStep (acc : List Str × List Str) (p : Str) : List Str × List Str :=
  if pathDepth p ≤ 3 then (acc.1, acc.2 ++ [p])
  else if collapse3 p ∈ acc.1 then acc
  else (collapse3 p :: acc.1, acc.2 ++ [collapse3 p])

/-- The `file_list` built by the directory-listing loop over the sorted
paths (before the 200-entry cap). -/
def buildFileList (sortedPaths : List Str) : List Str :=
  (sortedPaths.foldl dirStep ([], [])).2

/-- Lexicographic code-point comparison, Python `str` ordering. -/
def strLe : Str → Str → Bool
  | [], _ => true
  | _ :: _, [] => false
  | a :: as, b :: bs => if a = b then strLe as bs else decide (a < b)

/-- Insertion of one path into an already sorted list. -/
def insertLe (x : Str) : List Str → List Str
  | [] => [x]
  | y :: ys => if strLe x y then x :: y :: ys else y :: insertLe x ys

/-- Python `sorted(all_paths)` (code-point lexicographic order; insertion
sort computes the same list, since the order is linear). -/
def sortPaths (l : List Str) : List Str := l.foldr insertLe []

/-- Collapsed ancestors of the deeper-than-3 paths, deduplicated, in
first-seen order (the spec's description of the collapsed entries). -/
def newMarkers (seen : List Str) : List Str → List Str
  | [] => []
  | p :: l =>
    if pathDepth p ≤ 3 then newMarkers seen l
    else if collapse3 p ∈ seen then newMarkers seen l
    else collapse3 p :: newMarkers (collapse3 p :: seen) l

/-- Repository metadata JSON of the GitHub metadata endpoint (fields the
code reads; `none` models an absent JSON key). -/
structure RepoMeta where
  description : Option Str
  default_branch : Option Str
  language : Option Str
  topics : Option (List Str)

/-- One entry of the recursive tree response (`path` and `type` fields). -/
structure TreeItem where
  path : Str
  type : Str
deriving DecidableEq

/-- One response of the per-file contents endpoint. `content` holds the
bytes that base64-decoding the JSON `content` field yields (base64
transport is external to this model); `none` models an absent field. -/
structure FileResp where
  status : Nat
  encoding : Option Str
  content : Option (List Nat)

/-- The GitHub REST surface seen by one request: `none` for `meta`/`tree`
models `raise_for_status` throwing; `none` for `file` models the request
raising (swallowed by the per-file `except`). -/
structure Net where
  meta : Option RepoMeta
  tree : Option (List TreeItem)
  file : Str → Option FileResp

/-- Python `d.get(k) or default` (both `None` and the empty string are
falsy). -/
def pyOrStr (o : Option Str) (d : Str) : Str :=
  match o with
  | some s => if s.isEmpty then d else s
  | none => d

/-- The `all_paths` list collected from the tree. -/
def all_paths (tree : List TreeItem) : List Str := tree.map TreeItem.path

/-- The `key_file_paths` list: tree blobs whose base filename is in
`_KEY_FILES`, in tree order. -/
def key_file_paths (tree : List TreeItem) : List Str :=
  (tree.filter (fun it => _KEY_FILES.contains (basename it.path) && it.type == "blob".data)).map
    TreeItem.path

/-- The content string stored for one fetched key file:
`base64.b64decode(...).decode("utf-8", errors="replace")[:_MAX_FILE_BYTES]`
(note: a Python `str` slice, i.e. a 4000-character prefix). -/
def storedContent (bytes : List Nat) : Str := (utf8Decode bytes).take _MAX_FILE_BYTES

/-- One iteration of the key-file fetch loop: `none` when the file is
skipped (request raised, non-200 status, non-base64 encoding, or falsy
content). -/
def fetchFile (net : Net) (p : Str) : Option Str :=
  match net.file p with
  | none => none
  | some fr =>
    if fr.status == 200 then
      if fr.encoding == some "base64".data && !(fr.content.getD []).isEmpty then
        some (storedContent (fr.content.getD []))
      else none
    else none

/-- Python dict assignment `d[k] = v` on an insertion-ordered assoc list. -/
def dictInsert (d : List (Str × Str)) (k v : Str) : List (Str × Str) :=
  if d.any (fun kv => kv.1 == k) then d.map (fun kv => if kv.1 == k then (k, v) else kv)
  else d ++ [(k, v)]

/-- The `file_contents` dict built by the fetch loop over the first 10 key
files. -/
def file_contents (net : Net) (tasks : List Str) : List (Str × Str) :=
  tasks.foldl (fun acc p =>
    match fetchFile net p with
    | some c => dictInsert acc p c
    | none => acc) []

/-- The capped directory listing rendered into the digest:
`file_list[:200]` over the sorted paths. -/
def dirListing (paths : List Str) : List Str := (buildFileList (sortPaths paths)).take 200

/-- Step 4 of `fetch_repo_context`: the digest text (`"\n".join(parts)`). -/
def renderDigest (owner repo : Str) (meta : RepoMeta) (tree : List TreeItem)
    (fc : List (Str × Str)) : Str :=
  let description := pyOrStr meta.description "No description".data
  let default_branch := meta.default_branch.getD "main".data
  let language := pyOrStr meta.language "Unknown".data
  let topics := match meta.topics with
    | some t => t
    | none => []
  let parts : List Str :=
    ["# GitHub Repository: ".data ++ owner ++ "/".data ++ repo,
     "Description: ".data ++ description,
     "Primary Language: ".data ++ language,
     "Topics: ".data ++ (if topics.isEmpty then "None".data else List.intercalate ", ".data topics),
     "Default Branch: ".data ++ default_branch,
     [],
     "## Directory Structure".data,
     "```".data] ++
    dirListing (all_paths tree) ++
    ["```".data, []] ++
    (if fc.isEmpty then []
     else "## Key Configuration Files".data ::
       fc.flatMap (fun pc => ["\n### ".data ++ pc.1, "```".data, pc.2, "```".data]))
  List.intercalate "\n".data parts

/-- Exceptions relevant to the handler: `ValueError` (with its message),
`httpx.HTTPStatusError` from `raise_for_status`, and anything else. -/
inductive Exc where
  | valueError (msg : Str)
  | httpStatusError
  | otherError
deriving DecidableEq

/-- `github_analyzer.fetch_repo_context`, with the network calls it makes
logged in order in the second component. -/
def fetch_repo_context (net : Net) (repo_url : Str) : Except Exc Str × List Str :=
  match parse_github_url repo_url with
  | none =>
    (Except.error (Exc.valueError ("Could not parse GitHub URL: ".data ++
      rstripSlash (pyStrip repo_url))), [])
  | some (owner, repo) =>
    match net.meta with
    | none => (Except.error Exc.httpStatusError, ["meta".data])
    | some meta =>
      match net.tree with
      | none => (Except.error Exc.httpStatusError, ["meta".data, "tree".data])
      | some tree =>
        let tasks := (key_file_paths tree).take 10
        (Except.ok (renderDigest owner repo meta tree (file_contents net tasks)),
         ["meta".data, "tree".data] ++ tasks.map (fun p => "file:".data ++ p))

/-- `main.get_client` / `GeminiClient.__init__`: raises `ValueError` when
`GEMINI_API_KEY` is unset or empty (`if not api_key`). -/
def get_client (apiKey : Option Str) : Except Exc Unit :=
  if (apiKey.getD []).isEmpty then
    Except.error (Exc.valueError "GEMINI_API_KEY environment variable is not set".data)
  else Except.ok ()

/-- The `detail=str(e)` rendering of a caught exception (messages of
non-ValueError exceptions are opaque upstream text). -/
def excDetail : Exc → Str
  | Exc.valueError m => m
  | Exc.httpStatusError => "HTTPStatusError".data
  | Exc.otherError => "error".data

/-- The body of the `github_analyze` handler before exception mapping:
fetch the digest, lazily construct the client, call the model. The
text-generation backend is the parameter `llm` (applied to the digest, as
`analyze_repo` does). -/
def github_analyze_run (apiKey : Option Str) (llm : Str → Except Exc Str) (net : Net)
    (url : Str) : Except Exc Str :=
  match (fetch_repo_context net url).1 with
  | Except.error e => Except.error e
  | Except.ok ctx =>
    match get_client apiKey with
    | Except.error e => Except.error e
    | Except.ok _ => llm ctx

/-- The `try/except` of the `github_analyze` handler: `ValueError` becomes
HTTP 400, any other exception becomes HTTP 500. -/
def github_analyze (apiKey : Option Str) (llm : Str → Except Exc Str) (net : Net)
    (url : Str) : Nat × Str :=
  match github_analyze_run apiKey llm net url with
  | Except.ok r => (200, r)
  | Except.error (Exc.valueError m) => (400, m)
  | Except.error e => (500, excDetail e)

/-- Bounded worker for `replaceAll` (the fuel is the input length; each
step consumes at least one input character). -/
def replaceAllAux (pat rep : Str) : Nat → Str → Str
  | _, [] => []
  | 0, l => l
  | fuel + 1, c :: rest =>
    if pat.isPrefixOf (c :: rest) && !pat.isEmpty then
      rep ++ replaceAllAux pat rep fuel (List.drop (pat.length - 1) rest)
    else c :: replaceAllAux pat rep fuel rest

/-- Python `s.replace(pat, rep)`: left-to-right, non-overlapping
replacement of every occurrence (used with non-empty patterns only). -/
def replaceAll (pat rep l : Str) : Str := replaceAllAux pat rep l.length l

/-- `prompts._SHAPE_TYPES_DOC`. -/
def _SHAPE_TYPES_DOC : Str :=
  ("\nEach shape MUST have an \"id\" field (integer, unique, starting at 0). Shape types:\n\n1. \"geo\" - rectangles, ellipses, diamonds, clouds, etc:\n   \x7b\"id\": 0, \"type\": \"geo\", \"x\": 100, \"y\": 100, \"props\": \x7b\"w\": 200, \"h\": 100, \"geo\": \"rectangle\", \"text\": \"Label\", \"color\": \"blue\", \"fill\": \"semi\", \"dash\": \"draw\"\x7d\x7d\n   geo values: rectangle, ellipse, diamond, cloud, hexagon, octagon, star, triangle, oval, pentagon\n   colors: black, blue, green, red, orange, violet, yellow, grey, light-blue, light-green, light-red, light-violet\n\n2. \"arrow\" - connections between shapes. Use \"from\" and \"to\" referencing other shapes by id:\n   \x7b\"id\": 3, \"type\": \"arrow\", \"props\": \x7b\"from\": 0, \"to\": 1, \"text\": \"optional label\", \"color\": \"black\", \"dash\": \"solid\"\x7d\x7d\n   Arrows do NOT need x/y — they connect automatically to the shapes referenced by from/to.\n\n3. \"text\" - standalone text labels:\n   \x7b\"id\": 4, \"type\": \"text\", \"x\": 100, \"y\": 50, \"props\": \x7b\"text\": \"Title Text\", \"color\": \"black\", \"size\": \"l\"\x7d\x7d\n   sizes: s, m, l, xl\n\n4. \"note\" - sticky note:\n   \x7b\"id\": 5, \"type\": \"note\", \"x\": 100, \"y\": 100, \"props\": \x7b\"text\": \"Note content\", \"color\": \"yellow\", \"size\": \"m\"\x7d\x7d\n").data

/-- `prompts._RULES_DOC`. -/
def _RULES_DOC : Str :=
  ("\nIMPORTANT RULES:\n- Every shape must have a unique integer \"id\" starting from 0\n- Arrows MUST use \"from\" and \"to\" fields referencing other shape ids (NOT coordinates)\n- Arrow labels MUST be 1 word only (e.g. \"calls\", \"reads\", \"HTTP\", \"queries\"). No multi-word labels.\n- SPACING IS CRITICAL — shapes must NEVER overlap or be closer than 550px horizontally or 450px vertically\n- Use a strict GRID LAYOUT: place shapes on a grid with columns at x=100, x=650, x=1200, x=1750 and rows at y=150, y=600, y=1050, y=1500\n- Only connect shapes that are adjacent in the grid (neighbors). NEVER draw arrows that cross over other shapes.\n- Prefer connecting shapes in the same row or same column. Diagonal connections are OK only if no shape is in between.\n- Use \"dash\": \"draw\" on geo shapes for a hand-drawn look. Use \"dash\": \"solid\" on arrow shapes for consistent line thickness\n- Use \"fill\": \"semi\" on geo shapes for a light fill\n- Boxes should be ~240x120 to fit text, title text at size \"l\" or \"xl\"\n- For architecture diagrams, use rectangles for services, arrows for connections\n- For flowcharts, use diamonds for decisions, rectangles for processes\n- For brainstorming, use notes (sticky notes) spread around\n- Always include a title as a text shape at the top (at y=30)\n- Keep labels inside shapes SHORT: max 3-4 words per line. Put tech details in parentheses on a second line.\n- Return ONLY a valid JSON array, no markdown fences, no explanation\n").data

/-- `prompts.GENERATE_PROMPT`. -/
def GENERATE_PROMPT : Str :=
  ("You are a diagram generator. The user will describe what they want drawn on a canvas. Generate a JSON array of shapes to create.\n").data ++
  _SHAPE_TYPES_DOC ++ _RULES_DOC ++
  ("\nExample: [\x7b\"id\":0,\"type\":\"text\",\"x\":300,\"y\":30,\"props\":\x7b\"text\":\"My Diagram\",\"color\":\"black\",\"size\":\"xl\"\x7d\x7d,\x7b\"id\":1,\"type\":\"geo\",\"x\":100,\"y\":150,\"props\":\x7b\"w\":300,\"h\":130,\"geo\":\"rectangle\",\"text\":\"Service A\",\"color\":\"blue\",\"fill\":\"semi\",\"dash\":\"draw\"\x7d\x7d,\x7b\"id\":2,\"type\":\"geo\",\"x\":500,\"y\":150,\"props\":\x7b\"w\":300,\"h\":130,\"geo\":\"rectangle\",\"text\":\"Service B\",\"color\":\"green\",\"fill\":\"semi\",\"dash\":\"draw\"\x7d\x7d,\x7b\"id\":3,\"type\":\"arrow\",\"props\":\x7b\"from\":1,\"to\":2,\"text\":\"calls\",\"color\":\"black\",\"dash\":\"solid\"\x7d\x7d]").data

/-- `prompts.GITHUB_ARCHITECTURE_PROMPT` (with the `repo_context`
substitution slot). -/
def GITHUB_ARCHITECTURE_PROMPT : Str :=
  ("You are a software architecture diagram generator. You receive a summary of a GitHub repository including its directory structure, tech stack, and key configuration files.\n\nYour job is to create a CLEAR, CLEAN architecture diagram with NO overlapping.\n\nANALYSIS GUIDELINES:\n- Identify the 5-8 most important components (do NOT create more than 10 shapes excluding arrows and title)\n- Group small modules into larger logical components\n- Show only the PRIMARY data flow connections (max 8-10 arrows total)\n- Each component label should be short: component name on first line, tech in parentheses on second\n\nSTRICT GRID LAYOUT (MANDATORY):\n- Place ALL shapes on a clean grid. Use these exact column positions:\n  Column 1: x=100, Column 2: x=650, Column 3: x=1200, Column 4: x=1750\n- Use these exact row positions:\n  Row 1: y=150 (user-facing / entry points)\n  Row 2: y=600 (core application logic)\n  Row 3: y=1050 (data & storage layer)\n  Row 4: y=1500 (external services, if needed)\n- Every shape MUST be at one of these grid intersections. No in-between positions.\n- Make ALL boxes w=300, h=130 so they are uniform and readable.\n- Only connect shapes that are NEIGHBORS in the grid (same row adjacent columns, or same column adjacent rows).\n- NEVER draw arrows that would cross over another shape.\n\nCOLOR CODING:\n- blue: frontend/client\n- green: backend/server/API\n- orange: databases/storage\n- violet: external services/third-party APIs\n- light-blue: infrastructure (Docker, CI/CD)\n\nSHAPE TYPES:\n- Rectangles for internal modules/services\n- Clouds for external/third-party services\n- Ellipses for databases/data stores\n\nREPOSITORY CONTEXT:\n\x7brepo_context\x7d\n\n").data ++
  _SHAPE_TYPES_DOC ++ _RULES_DOC

/-- `prompts.GENERATE_WITH_CONTEXT_PROMPT` (with the `user_prompt`,
`existing_shapes` and `next_id` substitution slots). -/
def GENERATE_WITH_CONTEXT_PROMPT : Str :=
  ("You are a diagram assistant. The user has an existing diagram on their canvas (shown in the image) and wants to modify or add to it.\n\nThe user says: \"\x7buser_prompt\x7d\"\n\nEXISTING SHAPES on the canvas (you can reference these by id in arrow from/to):\n\x7bexisting_shapes\x7d\n\nYou can ADD new shapes, EDIT existing shapes, or DELETE existing shapes.\nEvery shape in your response MUST include an \"action\" field:\n- \"add\" — create a new shape. New shape ids MUST start from \x7bnext_id\x7d.\n- \"edit\" — modify an existing shape by its id. Only include the props that changed (e.g. \x7b\x7b\"id\": 2, \"action\": \"edit\", \"props\": \x7b\x7b\"color\": \"red\"\x7d\x7d\x7d\x7d). Do NOT include unchanged props.\n- \"delete\" — remove an existing shape by its id. No other fields needed (e.g. \x7b\x7b\"id\": 5, \"action\": \"delete\"\x7d\x7d).\n\nCRITICAL RULES:\n- When creating arrows that connect to existing shapes, use the existing shape ids above in the arrow's \"from\" and \"to\" fields.\n- Do NOT recreate shapes that already exist. If a shape needs changes, use \"edit\".\n- Only include shapes that the user's request refers to. Do NOT output every existing shape.\n- COLLISION AVOIDANCE: Look at the x/y positions of existing shapes listed above. New shapes MUST be placed at positions that do NOT overlap with any existing shape. Keep at least 550px horizontal and 450px vertical distance from every existing shape. If the standard grid columns (x=100,650,1200,1750) and rows (y=150,600,1050,1500) are occupied, extend the grid: use x=2300,2850 for extra columns and y=1950,2400 for extra rows. Never place a new shape at the same x,y as an existing one.\n").data ++
  _SHAPE_TYPES_DOC ++ _RULES_DOC

/-- The pydantic `ExistingShape` of `main.py` (`id`, `type`, `label`, `x`,
`y`).  The float coordinates play no role in any verified property and are
modelled as integers. -/
structure ExistingShape where
  id : Int
  type : Str
  label : Str
  x : Int
  y : Int

/-- JSON rendering of one existing shape (field order of `model_dump`;
string escaping and float formatting are abbreviated — no verified
property inspects this text). -/
def jsonOfShape (s : ExistingShape) : Str :=
  "\x7b\"id\": ".data ++ (toString s.id).data ++ ", \"type\": \"".data ++ s.type ++
  "\", \"label\": \"".data ++ s.label ++ "\", \"x\": ".data ++ (toString s.x).data ++
  ", \"y\": ".data ++ (toString s.y).data ++ "\x7d".data

/-- `json.dumps(existing_shapes)`. -/
def jsonDumpShapes (l : List ExistingShape) : Str :=
  "[".data ++ List.intercalate ", ".data (l.map jsonOfShape) ++ "]".data

/-- Python `max` over a non-empty list (the empty case is unreachable
under the guard in `next_id`, where Python `max` would raise). -/
def listMaxInt : List Int → Int
  | [] => 0
  | i :: is => is.foldl max i

/-- The `next_id` computed by `GeminiClient._generate_sync`:
`max(s["id"] for s in existing_shapes) + 1 if existing_shapes else 0`. -/
def next_id (existing_shapes : List ExistingShape) : Int :=
  if existing_shapes.isEmpty then 0
  else listMaxInt (existing_shapes.map ExistingShape.id) + 1

/-- One element of the `contents` list passed to the model. -/
inductive GenPart where
  | text (s : Str)
  | imagePng (bytes : List Nat)
deriving DecidableEq

/-- The context-aware prompt built in the first branch of
`_generate_sync` (three chained `str.replace` calls). -/
def contextPrompt (user_prompt : Str) (existing_shapes : List ExistingShape) : Str :=
  replaceAll "\x7bnext_id\x7d".data (toString (next_id existing_shapes)).data
    (replaceAll "\x7bexisting_shapes\x7d".data (jsonDumpShapes existing_shapes)
      (replaceAll "\x7buser_prompt\x7d".data user_prompt GENERATE_WITH_CONTEXT_PROMPT))

/-- `GeminiClient._generate_sync`: the `contents` built for the model
call.  The branch condition is Python truthiness of `image_bytes` and
`existing_shapes`. -/
def _generate_sync (user_prompt : Str) (image_bytes : Option (List Nat))
    (existing_shapes : List ExistingShape) : List GenPart :=
  if !(image_bytes.getD []).isEmpty && !existing_shapes.isEmpty then
    [GenPart.text (contextPrompt user_prompt existing_shapes),
     GenPart.imagePng (image_bytes.getD [])]
  else
    [GenPart.text (GENERATE_PROMPT ++ "\n\nUser request: ".data ++ user_prompt)]

/-- `GeminiClient.generate`: base64-decodes a truthy image payload
(decoder abstracted as the parameter `b64decode`, an external library
call) and defaults the shape list (`existing_shapes or []`). -/
def generate (b64decode : Str → List Nat) (user_prompt : Str) (image_base64 : Option Str)
    (existing_shapes : Option (List ExistingShape)) : List GenPart :=
  let image_bytes := match image_base64 with
    | some s => if s.isEmpty then none else some (b64decode s)
    | none => none
  _generate_sync user_prompt image_bytes (existing_shapes.getD [])

/-- Shape type enumeration of the spec's data model. -/
inductive SpecShapeType where
  | geo | arrow | text | note
deriving DecidableEq

/-- Modelled from the spec: the spec's `Shape` (type, optional
coordinates, and `from`/`to` id references carried by arrow shapes);
untyped `props` are omitted as no validation rule reads them. -/
structure SpecShape where
  stype : SpecShapeType
  x : Option Int
  y : Option Int
  fromRef : Option Int
  toRef : Option Int
deriving DecidableEq

/-- Action enumeration of the spec's `ShapeOperation`. -/
inductive OpAction where
  | add | edit | delete
deriving DecidableEq

/-- Modelled from the spec: the spec's `ShapeOperation` (`id`, `action`,
and a shape payload for `add`; `none` payload for `edit`/`delete`). -/
structure ShapeOperation where
  id : Int
  action : OpAction
  payload : Option SpecShape
deriving DecidableEq

/-- The three failure modes of the spec's `validate` contract. -/
inductive ValError where
  | DuplicateId (id : Int)
  | UnknownReference (id : Int)
  | DanglingArrowReference (ref : Int)
deriving DecidableEq

/-- The ids of the batch's `add` operations, in batch order. -/
def addIds (ops : List ShapeOperation) : List Int :=
  (ops.filter (fun o => o.action == OpAction.add)).map ShapeOperation.id

/-- First element that repeats later in the list, if any. -/
def firstDup : List Int → Option Int
  | [] => none
  | i :: is => if i ∈ is then some i else firstDup is

/-- A reference that is absent from the known-id set, if the option holds
one. -/
def badRef (known : List Int) : Option Int → Option Int
  | some i => if i ∈ known then none else some i
  | none => none

/-- The dangling `from`/`to` reference of an added arrow shape, if any. -/
def arrowDanglingRef (known : List Int) (o : ShapeOperation) : Option Int :=
  if o.action == OpAction.add then
    match o.payload with
    | some sh =>
      if sh.stype == SpecShapeType.arrow then
        match badRef known sh.fromRef with
        | some f => some f
        | none => badRef known sh.toRef
      else none
    | none => none
  else none

/-- Modelled from the spec: the Incremental Shape-Diff Validator
`validate(snapshot, operations)` of section 4.2 has no implementation
under `src/` (the spec states it as the contract a caller must enforce).
This decision procedure performs the three checks in the order the
contract sentence lists them: `DuplicateId` for an `add` id colliding
with another batch `add` id or a snapshot id, `UnknownReference` for an
`edit`/`delete` targeting an id absent from the snapshot, and
`DanglingArrowReference` for an added arrow whose `from`/`to` is outside
snapshot ∪ batch-add ids; otherwise it succeeds. -/
def validate (snapshot : List (Int × SpecShape)) (ops : List ShapeOperation) :
    Except ValError Unit :=
  match firstDup (addIds ops) with
  | some i => Except.error (ValError.DuplicateId i)
  | none =>
    match (addIds ops).find? (fun i => (snapshot.map Prod.fst).contains i) with
    | some i => Except.error (ValError.DuplicateId i)
    | none =>
      match (ops.filter (fun o => o.action == OpAction.edit || o.action == OpAction.delete)).find?
          (fun o => !(snapshot.map Prod.fst).contains o.id) with
      | some o => Except.error (ValError.UnknownReference o.id)
      | none =>
        match ops.findSome? (arrowDanglingRef (snapshot.map Prod.fst ++ addIds ops)) with
        | some r => Except.error (ValError.DanglingArrowReference r)
        | none => Except.ok ()

/-- The spec's `DuplicateId` condition: an `add` id collides with another
`add` id of the batch or with an existing snapshot id. -/
def DupCond (snapshot : List (Int × SpecShape)) (ops : List ShapeOperation) : Prop :=
  ¬ (addIds ops).Nodup ∨ ∃ i ∈ addIds ops, i ∈ snapshot.map Prod.fst

instance (snapshot : List (Int × SpecShape)) (ops : List ShapeOperation) :
    Decidable (DupCond snapshot ops) :=
  decidable_of_iff
    (¬ (addIds ops).Nodup ∨ ∃ i ∈ addIds ops, i ∈ snapshot.map Prod.fst) Iff.rfl

/-- The spec's `UnknownReference` condition: an `edit`/`delete` operation
targets an id absent from the snapshot. -/
def UnknownCond (snapshot : List (Int × SpecShape)) (ops : List ShapeOperation) : Prop :=
  ∃ o ∈ ops, (o.action = OpAction.edit ∨ o.action = OpAction.delete) ∧
    o.id ∉ snapshot.map Prod.fst

instance (snapshot : List (Int × SpecShape)) (ops : List ShapeOperation) :
    Decidable (UnknownCond snapshot ops) :=
  decidable_of_iff
    (∃ o ∈ ops, (o.action = OpAction.edit ∨ o.action = OpAction.delete) ∧
      o.id ∉ snapshot.map Prod.fst) Iff.rfl

/-- A `from`/`to` slot holds a reference outside the known-id set. -/
def refDangles (known : List Int) (ref : Option Int) : Prop :=
  ∃ r, ref = some r ∧ r ∉ known

instance (known : List Int) (ref : Option Int) : Decidable (refDangles known ref) :=
  match ref with
  | none => isFalse (by simp [refDangles])
  | some r => decidable_of_iff (r ∉ known) (by simp [refDangles])

/-- An `add` payload is an arrow shape with a dangling `from` or `to`
reference. -/
def payloadDangles (known : List Int) (p : Option SpecShape) : Prop :=
  ∃ sh, p = some sh ∧ sh.stype = SpecShapeType.arrow ∧
    (refDangles known sh.fromRef ∨ refDangles known sh.toRef)

instance (known : List Int) (p : Option SpecShape) : Decidable (payloadDangles known p) :=
  match p with
  | none => isFalse (by simp [payloadDangles])
  | some sh =>
    decidable_of_iff (sh.stype = SpecShapeType.arrow ∧
      (refDangles known sh.fromRef ∨ refDangles known sh.toRef)) (by simp [payloadDangles])

/-- The spec's `DanglingArrowReference` condition: an added arrow shape's
`from`/`to` references an id not present in snapshot ∪ batch-add ids. -/
def DanglingCond (snapshot : List (Int × SpecShape)) (ops : List ShapeOperation) : Prop :=
  ∃ o ∈ ops, o.action = OpAction.add ∧
    payloadDangles (snapshot.map Prod.fst ++ addIds ops) o.payload

instance (snapshot : List (Int × SpecShape)) (ops : List ShapeOperation) :
    Decidable (DanglingCond snapshot ops) :=
  decidable_of_iff
    (∃ o ∈ ops, o.action = OpAction.add ∧
      payloadDangles (snapshot.map Prod.fst ++ addIds ops) o.payload) Iff.rfl

/-- A plain geo shape used in concrete validation examples. -/
def geoShape : SpecShape := ⟨SpecShapeType.geo, some 100, some 100, none, none⟩

/-- An arrow shape `{from: f, to: t}` used in concrete validation
examples. -/
def arrowShape (f t : Int) : SpecShape := ⟨SpecShapeType.arrow, none, none, some f, some t⟩

/-- The spec's fixture snapshot `{0,1,2}`. -/
def snap012 : List (Int × SpecShape) := [(0, geoShape), (1, geoShape), (2, geoShape)]

/-- A concrete existing-shape snapshot used in witnesses. -/
def demoShapes : List ExistingShape :=
  [⟨5, "geo".data, "A".data, 100, 150⟩, ⟨2, "note".data, "B".data, 650, 150⟩]

/-- A minimal network model used in witnesses: metadata and tree fetches
succeed (empty tree), every file fetch raises. -/
def demoNetEmpty : Net := ⟨some ⟨none, none, none, none⟩, some [], fun _ => none⟩

/-- UTF-8 bytes of `n` copies of the two-byte character `'é'` (0xC3 0xA9),
a valid decoded file content of `n` characters and `2 n` bytes. -/
def eAcuteBytes : Nat → List Nat
  | 0 => []
  | n + 1 => 0xC3 :: 0xA9 :: eAcuteBytes n

/-- A ten-blob tree of distinct key files, used in the partial-degradation
witness. -/
def demoTree3 : List TreeItem :=
  [⟨"package.json".data, "blob".data⟩, ⟨"tsconfig.json".data, "blob".data⟩,
   ⟨"vite.config.ts".data, "blob".data⟩, ⟨"vite.config.js".data, "blob".data⟩,
   ⟨"next.config.js".data, "blob".data⟩, ⟨"next.config.ts".data, "blob".data⟩,
   ⟨"next.config.mjs".data, "blob".data⟩, ⟨"requirements.txt".data, "blob".data⟩,
   ⟨"pyproject.toml".data, "blob".data⟩, ⟨"setup.py".data, "blob".data⟩]

/-- A network where metadata and tree succeed, 3 of the 10 key-file
fetches raise and the other 7 return the two ASCII bytes `ok`. -/
def demoNet3 : Net :=
  ⟨some ⟨some "d".data, some "main".data, some "py".data, some []⟩,
   some demoTree3,
   fun p =>
     if p ∈ (["tsconfig.json".data, "vite.config.ts".data, "setup.py".data] : List Str)
     then none
     else some ⟨200, some "base64".data, some [0x6F, 0x6B]⟩⟩

/-- A network whose metadata fetch fails. -/
def demoNetMetaFail : Net := ⟨none, none, fun _ => none⟩

/-- A small path list used in the directory-listing witness (two paths of
depth 4 sharing a collapsed ancestor, two shallow paths). -/
def demoPaths : List Str :=
  ["docs/a/b/c/d.md".data, "docs/a/b/c/e.md".data, "src/index.ts".data, "package.json".data]

/-- A small tree used in the key-file selection witness: a nested
`README.md` blob, a case-mismatched `readme.md` blob, and a
`package.json` entry that is not a blob. -/
def demoTree6 : List TreeItem :=
  [⟨"src/a/b/README.md".data, "blob".data⟩,
   ⟨"readme.md".data, "blob".data⟩,
   ⟨"package.json".data, "tree".data⟩]

theorem firstDup_eq_none_iff (l : List Int) : firstDup l = none ↔ l.Nodup := by
  induction l with
  | nil => simp [firstDup]
  | cons i is ih => by_cases h : i ∈ is <;> simp [firstDup, h, ih]

theorem arrowDanglingRef_none_iff (known : List Int) (o : ShapeOperation) :
    arrowDanglingRef known o = none ↔
      ¬ (o.action = OpAction.add ∧ payloadDangles known o.payload) := by
  constructor
  · rintro h ⟨ha, sh, hp, hst, hd⟩
    unfold arrowDanglingRef at h
    simp [ha, hp, hst] at h
    rcases hd with ⟨r, hr, hrk⟩ | ⟨r, hr, hrk⟩
    · rw [hr] at h
      simp [badRef, hrk] at h
    · cases hbf : badRef known sh.fromRef with
      | some f => rw [hbf] at h; simp at h
      | none => rw [hbf] at h; simp at h; rw [hr] at h; simp [badRef, hrk] at h
  · intro h
    unfold arrowDanglingRef
    by_cases ha : o.action = OpAction.add
    · cases hp : o.payload with
      | none => simp [ha, hp]
      | some sh =>
        by_cases hst : sh.stype = SpecShapeType.arrow
        · have hnd : ¬ payloadDangles known o.payload := fun hd => h ⟨ha, hd⟩
          have h1 : badRef known sh.fromRef = none := by
            cases hf : sh.fromRef with
            | none => simp [badRef]
            | some r =>
              by_cases hk : r ∈ known
              · simp [badRef, hk]
              · exact absurd ⟨sh, hp, hst, Or.inl ⟨r, hf, hk⟩⟩ hnd
          have h2 : badRef known sh.toRef = none := by
            cases ht : sh.toRef with
            | none => simp [badRef]
            | some r =>
              by_cases hk : r ∈ known
              · simp [badRef, hk]
              · exact absurd ⟨sh, hp, hst, Or.inr ⟨r, ht, hk⟩⟩ hnd
          simp [ha, hp, hst, h1, h2]
        · simp [ha, hp, beq_iff_eq, hst]
    · simp [beq_iff_eq, ha]

/-- C1 (spec-modelled): `validate` fails with `DuplicateId` when an add id
collides with another batch add id or a snapshot id; failing that, fails
with `UnknownReference` when an edit/delete targets an id outside the
snapshot; failing that, fails with `DanglingArrowReference` when an added
arrow references an id outside snapshot ∪ batch add ids; and otherwise
succeeds (so an arrow may forward-reference an id added by the same
batch). -/
theorem C1_validate_contract (snapshot : List (Int × SpecShape)) (ops : List ShapeOperation) :
    (DupCond snapshot ops →
      ∃ i, validate snapshot ops = Except.error (ValError.DuplicateId i)) ∧
    (¬ DupCond snapshot ops → UnknownCond snapshot ops →
      ∃ i, validate snapshot ops = Except.error (ValError.UnknownReference i)) ∧
    (¬ DupCond snapshot ops → ¬ UnknownCond snapshot ops → DanglingCond snapshot ops →
      ∃ r, validate snapshot ops = Except.error (ValError.DanglingArrowReference r)) ∧
    (¬ DupCond snapshot ops → ¬ UnknownCond snapshot ops → ¬ DanglingCond snapshot ops →
      validate snapshot ops = Except.ok ()) := by
  have notdup : ∀ (_ : ¬ DupCond snapshot ops),
      firstDup (addIds ops) = none ∧
      (addIds ops).find? (fun i => (snapshot.map Prod.fst).contains i) = none := by
    intro hdup
    rw [DupCond] at hdup
    push_neg at hdup
    refine ⟨(firstDup_eq_none_iff _).mpr hdup.1, ?_⟩
    rw [List.find?_eq_none]
    intro i hi
    simpa using hdup.2 i hi
  have notunk : ∀ (_ : ¬ UnknownCond snapshot ops),
      (ops.filter (fun o => o.action == OpAction.edit || o.action == OpAction.delete)).find?
        (fun o => !(snapshot.map Prod.fst).contains o.id) = none := by
    intro hunk
    rw [UnknownCond] at hunk
    push_neg at hunk
    rw [List.find?_eq_none]
    intro o ho
    rw [List.mem_filter] at ho
    have hact : o.action = OpAction.edit ∨ o.action = OpAction.delete := by
      have := ho.2
      simp [beq_iff_eq] at this
      exact this
    simpa using hunk o ho.1 hact
  refine ⟨?_, ?_, ?_, ?_⟩
  · intro hdup
    by_cases hnd : (addIds ops).Nodup
    · rcases hdup with h | ⟨i, hi, hsnap⟩
      · exact absurd hnd h
      · have h1 : firstDup (addIds ops) = none := (firstDup_eq_none_iff _).mpr hnd
        cases hfind : (addIds ops).find? (fun i => (snapshot.map Prod.fst).contains i) with
        | none =>
          exfalso
          rw [List.find?_eq_none] at hfind
          exact hfind i hi (by simpa using hsnap)
        | some j => exact ⟨j, by unfold validate; rw [h1, hfind]⟩
    · cases hf : firstDup (addIds ops) with
      | none => exact absurd ((firstDup_eq_none_iff _).mp hf) hnd
      | some i => exact ⟨i, by unfold validate; rw [hf]⟩
  · intro hdup hunk
    obtain ⟨h1, h2⟩ := notdup hdup
    obtain ⟨o, ho, hact, hid⟩ := hunk
    have hmemf : o ∈ ops.filter
        (fun o => o.action == OpAction.edit || o.action == OpAction.delete) := by
      rw [List.mem_filter]
      refine ⟨ho, ?_⟩
      rcases hact with h | h <;> simp [h]
    cases hfind : (ops.filter
        (fun o => o.action == OpAction.edit || o.action == OpAction.delete)).find?
        (fun o => !(snapshot.map Prod.fst).contains o.id) with
    | none =>
      exfalso
      rw [List.find?_eq_none] at hfind
      exact hfind o hmemf (by simpa using hid)
    | some o' => exact ⟨o'.id, by unfold validate; rw [h1, h2, hfind]⟩
  · intro hdup hunk hdang
    obtain ⟨h1, h2⟩ := notdup hdup
    have h3 := notunk hunk
    obtain ⟨o, ho, hadd, hpd⟩ := hdang
    cases hfs : ops.findSome?
        (arrowDanglingRef (snapshot.map Prod.fst ++ addIds ops)) with
    | none =>
      exfalso
      rw [List.findSome?_eq_none_iff] at hfs
      exact (arrowDanglingRef_none_iff _ o).mp (hfs o ho) ⟨hadd, hpd⟩
    | some r => exact ⟨r, by unfold validate; rw [h1, h2, h3, hfs]⟩
  · intro hdup hunk hdang
    obtain ⟨h1, h2⟩ := notdup hdup
    have h3 := notunk hunk
    have h4 : ops.findSome?
        (arrowDanglingRef (snapshot.map Prod.fst ++ addIds ops)) = none := by
      rw [List.findSome?_eq_none_iff]
      intro o ho
      rw [arrowDanglingRef_none_iff]
      rintro ⟨ha, hp⟩
      exact hdang ⟨o, ho, ha, hp⟩
    unfold validate
    rw [h1, h2, h3, h4]

theorem C1_validate_contract_witness :
    validate snap012 [⟨3, OpAction.add, some (arrowShape 1 3)⟩] = Except.ok () ∧
    (∃ i, validate snap012 [⟨1, OpAction.add, some geoShape⟩] =
      Except.error (ValError.DuplicateId i)) ∧
    (∃ i, validate snap012 [⟨9, OpAction.edit, none⟩] =
      Except.error (ValError.UnknownReference i)) :=
  ⟨(C1_validate_contract snap012 _).2.2.2 (by decide) (by decide) (by decide),
   (C1_validate_contract snap012 _).1 (by decide),
   (C1_validate_contract snap012 _).2.1 (by decide) (by decide)⟩

theorem foldl_max_spec (xs : List Int) :
    ∀ x : Int, xs.foldl max x ∈ x :: xs ∧ x ≤ xs.foldl max x ∧
      ∀ y ∈ xs, y ≤ xs.foldl max x := by
  induction xs with
  | nil => simp
  | cons a as ih =>
    intro x
    obtain ⟨h1, h2, h3⟩ := ih (max x a)
    simp only [List.foldl_cons]
    refine ⟨?_, ?_, ?_⟩
    · rcases List.mem_cons.mp h1 with h | h
      · rcases max_choice x a with hc | hc
        · rw [h, hc]
          exact List.mem_cons_self x (a :: as)
        · rw [h, hc]
          exact List.mem_cons_of_mem x (List.mem_cons_self a as)
      · exact List.mem_cons_of_mem x (List.mem_cons_of_mem a h)
    · exact le_trans (le_max_left x a) h2
    · intro y hy
      rcases List.mem_cons.mp hy with h | h
      · subst h
        exact le_trans (le_max_right x y) h2
      · exact h3 y h

theorem generate_sync_context (up : Str) (bytes : List Nat) (es : List ExistingShape)
    (hb : bytes ≠ []) (he : es ≠ []) :
    _generate_sync up (some bytes) es =
      [GenPart.text (contextPrompt up es), GenPart.imagePng bytes] := by
  simp [_generate_sync, hb, he]

/-- C7: the `next_id` substituted into the context-aware generation prompt
is `max(existing ids) + 1` for a non-empty snapshot (it exceeds every
existing id by exactly one and `next_id - 1` is an existing id) and `0`
for an empty snapshot. -/
theorem C7_next_id_rule :
    next_id [] = 0 ∧
    (∀ es : List ExistingShape, es ≠ [] →
      (next_id es - 1) ∈ es.map ExistingShape.id ∧
      ∀ i ∈ es.map ExistingShape.id, i ≤ next_id es - 1) ∧
    (∀ (up : Str) (bytes : List Nat) (es : List ExistingShape), bytes ≠ [] → es ≠ [] →
      _generate_sync up (some bytes) es =
        [GenPart.text (contextPrompt up es), GenPart.imagePng bytes]) := by
  refine ⟨rfl, ?_, generate_sync_context⟩
  intro es hne
  cases es with
  | nil => exact absurd rfl hne
  | cons s t =>
    have hmax := foldl_max_spec (t.map ExistingShape.id) s.id
    have hid : next_id (s :: t) - 1 = (t.map ExistingShape.id).foldl max s.id := by
      simp [next_id, listMaxInt]
    constructor
    · rw [hid]
      exact hmax.1
    · intro i hi
      rw [hid]
      rcases List.mem_cons.mp hi with h | h
      · exact h ▸ hmax.2.1
      · exact hmax.2.2 i h

theorem C7_next_id_rule_witness :
    next_id [] = 0 ∧
    (next_id demoShapes - 1) ∈ demoShapes.map ExistingShape.id ∧
    _generate_sync "draw".data (some [137]) demoShapes =
      [GenPart.text (contextPrompt "draw".data demoShapes), GenPart.imagePng [137]] :=
  ⟨C7_next_id_rule.1,
   (C7_next_id_rule.2.1 demoShapes (List.cons_ne_nil _ _)).1,
   C7_next_id_rule.2.2 "draw".data [137] demoShapes (List.cons_ne_nil _ _)
     (List.cons_ne_nil _ _)⟩

/-- C9: the context-aware template is used exactly when an image payload
and a non-empty existing-shape list are both supplied; with shapes but no
image the snapshot is ignored and the plain template plus the user prompt
is used. -/
theorem C9_template_selection :
    (∀ (b64 : Str → List Nat) (up : Str) (es : Option (List ExistingShape)),
      generate b64 up none es =
        [GenPart.text (GENERATE_PROMPT ++ "\n\nUser request: ".data ++ up)]) ∧
    (∀ (up : Str) (es : List ExistingShape),
      _generate_sync up none es =
        [GenPart.text (GENERATE_PROMPT ++ "\n\nUser request: ".data ++ up)]) ∧
    (∀ (up : Str) (bytes : List Nat),
      _generate_sync up (some bytes) [] =
        [GenPart.text (GENERATE_PROMPT ++ "\n\nUser request: ".data ++ up)]) ∧
    (∀ (up : Str) (bytes : List Nat) (es : List ExistingShape), bytes ≠ [] → es ≠ [] →
      _generate_sync up (some bytes) es =
        [GenPart.text (contextPrompt up es), GenPart.imagePng bytes]) := by
  refine ⟨fun b64 up es => rfl, fun up es => rfl, ?_, generate_sync_context⟩
  intro up bytes
  simp [_generate_sync]

theorem C9_template_selection_witness :
    generate (fun _ => [137]) "draw".data none (some demoShapes) =
      [GenPart.text (GENERATE_PROMPT ++ "\n\nUser request: ".data ++ "draw".data)] ∧
    _generate_sync "draw".data (some [137]) demoShapes =
      [GenPart.text (contextPrompt "draw".data demoShapes), GenPart.imagePng [137]] :=
  ⟨C9_template_selection.1 (fun _ => [137]) "draw".data (some demoShapes),
   C9_template_selection.2.2.2 "draw".data [137] demoShapes (List.cons_ne_nil _ _)
     (List.cons_ne_nil _ _)⟩

/-- C10: every `ValueError` raised inside the `github_analyze` handler
body is mapped to HTTP 400; in particular a missing `GEMINI_API_KEY`,
raised on lazy client construction, surfaces as a 400 client error (not a
5xx). -/
theorem C10_value_error_maps_to_400 :
    (∀ (apiKey : Option Str) (llm : Str → Except Exc Str) (net : Net) (url : Str) (m : Str),
      github_analyze_run apiKey llm net url = Except.error (Exc.valueError m) →
      github_analyze apiKey llm net url = (400, m)) ∧
    (∀ (apiKey : Option Str) (llm : Str → Except Exc Str) (net : Net) (url : Str) (ctx : Str),
      (fetch_repo_context net url).1 = Except.ok ctx → (apiKey.getD []).isEmpty = true →
      github_analyze apiKey llm net url =
        (400, "GEMINI_API_KEY environment variable is not set".data)) := by
  constructor
  · intro apiKey llm net url m h
    unfold github_analyze
    rw [h]
  · intro apiKey llm net url ctx hf hk
    have hrun : github_analyze_run apiKey llm net url =
        Except.error (Exc.valueError "GEMINI_API_KEY environment variable is not set".data) := by
      unfold github_analyze_run get_client
      rw [hf]
      simp [hk]
    unfold github_analyze
    rw [hrun]

theorem C10_value_error_maps_to_400_witness :
    github_analyze none (fun _ => Except.ok []) demoNetEmpty "a/b".data =
      (400, "GEMINI_API_KEY environment variable is not set".data) :=
  C10_value_error_maps_to_400.2 none (fun _ => Except.ok []) demoNetEmpty "a/b".data _ rfl rfl

/-- C8: a reference string accepted by neither grammar of
`parse_github_url` (such as `"not a url"` or `"/leading/slash"`) makes
`fetch_repo_context` fail with the `ValueError` before any network call
(the request log is empty), and the handler surfaces it as HTTP 400. -/
theorem C8_malformed_reference :
    parse_github_url "not a url".data = none ∧
    parse_github_url "/leading/slash".data = none ∧
    (∀ (net : Net) (url : Str), parse_github_url url = none →
      fetch_repo_context net url =
        (Except.error (Exc.valueError ("Could not parse GitHub URL: ".data ++
          rstripSlash (pyStrip url))), [])) ∧
    (∀ (apiKey : Option Str) (llm : Str → Except Exc Str) (net : Net) (url : Str),
      parse_github_url url = none →
      github_analyze apiKey llm net url =
        (400, "Could not parse GitHub URL: ".data ++ rstripSlash (pyStrip url))) := by
  have hfetch : ∀ (net : Net) (url : Str), parse_github_url url = none →
      fetch_repo_context net url =
        (Except.error (Exc.valueError ("Could not parse GitHub URL: ".data ++
          rstripSlash (pyStrip url))), []) := by
    intro net url h
    unfold fetch_repo_context
    rw [h]
  refine ⟨by decide, by decide, hfetch, ?_⟩
  intro apiKey llm net url h
  have h1 : (fetch_repo_context net url).1 =
      Except.error (Exc.valueError ("Could not parse GitHub URL: ".data ++
        rstripSlash (pyStrip url))) := by
    rw [hfetch net url h]
  unfold github_analyze github_analyze_run
  rw [h1]

theorem C8_malformed_reference_witness :
    fetch_repo_context demoNetEmpty "not a url".data =
      (Except.error (Exc.valueError ("Could not parse GitHub URL: ".data ++
        rstripSlash (pyStrip "not a url".data))), []) ∧
    github_analyze none (fun _ => Except.ok []) demoNetEmpty "/leading/slash".data =
      (400, "Could not parse GitHub URL: ".data ++ rstripSlash (pyStrip "/leading/slash".data)) :=
  ⟨C8_malformed_reference.2.2.1 demoNetEmpty "not a url".data (by decide),
   C8_malformed_reference.2.2.2 none (fun _ => Except.ok []) demoNetEmpty
     "/leading/slash".data (by decide)⟩

theorem basename_step_free (f : Str) :
    ∀ acc : Str, (∀ c ∈ f, c ≠ '/') →
      f.foldl (fun acc c => if c = '/' then [] else acc ++ [c]) acc = acc ++ f := by
  induction f with
  | nil => intro acc _; simp
  | cons c t ih =>
    intro acc h
    have hc : c ≠ '/' := h c (List.mem_cons_self c t)
    simp only [List.foldl_cons, if_neg hc]
    rw [ih (acc ++ [c]) (fun x hx => h x (List.mem_cons_of_mem c hx))]
    simp

theorem basename_append (d f : Str) (h : ∀ c ∈ f, c ≠ '/') :
    basename (d ++ '/' :: f) = f := by
  unfold basename
  rw [List.foldl_append]
  simp only [List.foldl_cons, if_pos rfl]
  exact basename_step_free f [] h

theorem mem_key_file_paths (tree : List TreeItem) (p : Str) :
    p ∈ key_file_paths tree ↔
      ∃ it ∈ tree, it.path = p ∧ basename p ∈ _KEY_FILES ∧ it.type = "blob".data := by
  unfold key_file_paths
  simp only [List.mem_map, List.mem_filter, Bool.and_eq_true]
  constructor
  · rintro ⟨it, ⟨hmem, hkey, htype⟩, hpath⟩
    refine ⟨it, hmem, hpath, ?_, ?_⟩
    · rw [← hpath]
      simpa using hkey
    · simpa [beq_iff_eq] using htype
  · rintro ⟨it, hmem, hpath, hbase, htype⟩
    refine ⟨it, ⟨hmem, ?_, ?_⟩, hpath⟩
    · rw [hpath]
      simpa using hbase
    · simp [beq_iff_eq, htype]

/-- C6: key-file selection fetches at most 10 files; a path is a selection
candidate exactly when some tree blob carries it with a base filename on
the `_KEY_FILES` allow-list (path depth plays no role: a nested
`README.md` qualifies), and the match is case-sensitive (`readme.md` is
not on the list). -/
theorem C6_key_file_selection (tree : List TreeItem) :
    ((key_file_paths tree).take 10).length ≤ 10 ∧
    (∀ p : Str, p ∈ key_file_paths tree ↔
      ∃ it ∈ tree, it.path = p ∧ basename p ∈ _KEY_FILES ∧ it.type = "blob".data) ∧
    (∀ d : Str, basename (d ++ "/README.md".data) = "README.md".data) ∧
    "README.md".data ∈ _KEY_FILES ∧ "readme.md".data ∉ _KEY_FILES := by
  refine ⟨?_, mem_key_file_paths tree, ?_, by decide, by decide⟩
  · rw [List.length_take]
    exact min_le_left _ _
  · intro d
    have h : "/README.md".data = '/' :: "README.md".data := rfl
    rw [h]
    exact basename_append d "README.md".data (by decide)

theorem C6_key_file_selection_witness :
    "src/a/b/README.md".data ∈ key_file_paths demoTree6 ∧
    "readme.md".data ∉ _KEY_FILES :=
  ⟨((C6_key_file_selection demoTree6).2.1 "src/a/b/README.md".data).mpr
      ⟨⟨"src/a/b/README.md".data, "blob".data⟩, by decide, rfl, by decide, rfl⟩,
   (C6_key_file_selection demoTree6).2.2.2.2⟩

theorem utf8Decode_eacute_cons (l : List Nat) :
    utf8Decode (0xC3 :: 0xA9 :: l) = 'é' :: utf8Decode l := by
  rw [utf8Decode.eq_def]
  norm_num [contB]

theorem utf8Decode_eAcuteBytes (n : Nat) :
    utf8Decode (eAcuteBytes n) = List.replicate n 'é' := by
  induction n with
  | zero => rfl
  | succ k ih =>
    show utf8Decode (0xC3 :: 0xA9 :: eAcuteBytes k) = List.replicate (k + 1) 'é'
    rw [utf8Decode_eacute_cons, ih, List.replicate_succ]

theorem utf8Len_replicate (n : Nat) (c : Char) :
    utf8Len (List.replicate n c) = n * c.utf8Size := by
  unfold utf8Len
  rw [List.map_replicate, List.sum_replicate, smul_eq_mul]

/-- C4 (code bug): `content[:_MAX_FILE_BYTES]` slices the decoded Python
string, i.e. keeps 4000 characters, not 4000 bytes; a file whose decoded
content is 2001 copies of the two-byte character `'é'` is stored whole
and its rendered content occupies 4002 UTF-8 bytes, exceeding the
4000-byte budget the constant's name and the spec promise. -/
theorem C4_truncation_budget_is_chars_not_bytes :
    storedContent (eAcuteBytes 2001) = List.replicate 2001 'é' ∧
    utf8Len (storedContent (eAcuteBytes 2001)) = 4002 ∧
    _MAX_FILE_BYTES = 4000 ∧
    _MAX_FILE_BYTES < utf8Len (storedContent (eAcuteBytes 2001)) := by
  have hstore : storedContent (eAcuteBytes 2001) = List.replicate 2001 'é' := by
    unfold storedContent
    rw [utf8Decode_eAcuteBytes]
    apply List.take_of_length_le
    rw [List.length_replicate]
    norm_num [_MAX_FILE_BYTES]
  have hlen : utf8Len (storedContent (eAcuteBytes 2001)) = 4002 := by
    rw [hstore, utf8Len_replicate]
    decide
  exact ⟨hstore, hlen, rfl, by rw [hlen]; norm_num [_MAX_FILE_BYTES]⟩

theorem dropWhile_eq_self_of_forall {p : Char → Bool} (l : Str)
    (h : ∀ c ∈ l, p c = false) : l.dropWhile p = l := by
  cases l with
  | nil => rfl
  | cons a t => simp [List.dropWhile_cons, h a (List.mem_cons_self a t)]

theorem pyStrip_eq_self (l : Str) (h : ∀ c ∈ l, isPySpace c = false) : pyStrip l = l := by
  unfold pyStrip
  rw [dropWhile_eq_self_of_forall l h,
    dropWhile_eq_self_of_forall l.reverse (fun c hc => h c (List.mem_reverse.mp hc)),
    List.reverse_reverse]

theorem rstripSlash_eq_self (l : Str) (h : ∀ c, l.getLast? = some c → c ≠ '/') :
    rstripSlash l = l := by
  unfold rstripSlash
  cases hr : l.reverse with
  | nil =>
    rw [List.reverse_eq_nil_iff] at hr
    subst hr
    rfl
  | cons a t =>
    have hlast : l.getLast? = some a := by
      rw [← List.head?_reverse, hr]
      rfl
    have ha : (a == '/') = false := beq_eq_false_iff_ne.mpr (h a hlast)
    rw [List.dropWhile_cons, ha]
    simp only [Bool.false_eq_true, if_false]
    rw [← hr, List.reverse_reverse]

theorem forall_mem_append {p : Char → Bool} {l₁ l₂ : Str}
    (h1 : ∀ c ∈ l₁, p c = false) (h2 : ∀ c ∈ l₂, p c = false) :
    ∀ c ∈ l₁ ++ l₂, p c = false := by
  intro c hc
  rcases List.mem_append.mp hc with h | h
  · exact h1 c h
  · exact h2 c h

theorem rstripSlash_append_cons (x r : Str) (hr : r ≠ []) (hlast : ∀ c ∈ r, c ≠ '/') :
    rstripSlash (x ++ '/' :: r) = x ++ '/' :: r := by
  apply rstripSlash_eq_self
  obtain ⟨d, hd, hdm⟩ : ∃ d, r.getLast? = some d ∧ d ∈ r := by
    cases r with
    | nil => exact absurd rfl hr
    | cons b t =>
      exact ⟨(b :: t).getLast (by simp), List.getLast?_eq_getLast _ (by simp),
        List.getLast_mem _⟩
  intro c hc
  rw [List.getLast?_append] at hc
  have h2 : ('/' :: r).getLast? = some d := by
    cases r with
    | nil => exact absurd rfl hr
    | cons b t =>
      rw [List.getLast?_cons_cons]
      exact hd
  rw [h2] at hc
  simp only [Option.or_some] at hc
  cases hc
  exact hlast d hdm

theorem isPrefixOf_append_self (p t : Str) : p.isPrefixOf (p ++ t) = true := by
  rw [List.isPrefixOf_iff_prefix]
  exact List.prefix_append p t

theorem isPrefixOf_head_ne {a b : Char} (as bs : Str) (h : a ≠ b) :
    (a :: as).isPrefixOf (b :: bs) = false := by
  simp [List.isPrefixOf, h]

theorem drop_len_append (l₁ l₂ : Str) (n : Nat) (h : l₁.length = n) :
    (l₁ ++ l₂).drop n = l₂ := by
  subst h
  exact List.drop_left l₁ l₂

theorem count_drop_le (c : Char) (l : Str) (n : Nat) :
    (l.drop n).count c ≤ l.count c := (List.drop_sublist n l).count_le c

theorem isPrefixOf_count_lt {p l : Str} (c : Char) (h : l.count c < p.count c) :
    p.isPrefixOf l = false := by
  by_contra hx
  rw [Bool.not_eq_false, List.isPrefixOf_iff_prefix] at hx
  have := hx.sublist.count_le c
  omega

theorem splitSlash_no_slash (l : Str) (h : '/' ∉ l) : splitSlash l = [l] := by
  induction l with
  | nil => rfl
  | cons c t ih =>
    have hc : c ≠ '/' := fun e => h (e ▸ List.mem_cons_self c t)
    have ht : '/' ∉ t := fun m => h (List.mem_cons_of_mem c m)
    have hceq : (c == '/') = false := beq_eq_false_iff_ne.mpr hc
    rw [splitSlash, hceq]
    simp only [Bool.false_eq_true, if_false]
    rw [ih ht]

theorem splitSlash_append (l₁ l₂ : Str) (h : '/' ∉ l₁) :
    splitSlash (l₁ ++ '/' :: l₂) = l₁ :: splitSlash l₂ := by
  induction l₁ with
  | nil =>
    show splitSlash ('/' :: l₂) = [] :: splitSlash l₂
    rw [splitSlash]
    simp
  | cons c t ih =>
    have hc : c ≠ '/' := fun e => h (e ▸ List.mem_cons_self c t)
    have ht : '/' ∉ t := fun m => h (List.mem_cons_of_mem c m)
    have hceq : (c == '/') = false := beq_eq_false_iff_ne.mpr hc
    show splitSlash (c :: (t ++ '/' :: l₂)) = (c :: t) :: splitSlash l₂
    rw [splitSlash, hceq]
    simp only [Bool.false_eq_true, if_false]
    rw [ih ht]

theorem www_not_prefix_of_github (x : Str) :
    "www.".data.isPrefixOf ("github.com/".data ++ x) = false := by
  have e1 : "github.com/".data ++ x = 'g' :: ("ithub.com/".data ++ x) := rfl
  have e2 : "www.".data = 'w' :: "ww.".data := rfl
  rw [e1, e2]
  exact isPrefixOf_head_ne _ _ (by decide)

theorem https_not_prefix_of_github (x : Str) :
    "https://".data.isPrefixOf ("github.com/".data ++ x) = false := by
  have e1 : "github.com/".data ++ x = 'g' :: ("ithub.com/".data ++ x) := rfl
  have e2 : "https://".data = 'h' :: "ttps://".data := rfl
  rw [e1, e2]
  exact isPrefixOf_head_ne _ _ (by decide)

theorem http_not_prefix_of_github (x : Str) :
    "http://".data.isPrefixOf ("github.com/".data ++ x) = false := by
  have e1 : "github.com/".data ++ x = 'g' :: ("ithub.com/".data ++ x) := rfl
  have e2 : "http://".data = 'h' :: "ttp://".data := rfl
  rw [e1, e2]
  exact isPrefixOf_head_ne _ _ (by decide)

theorem dropScheme_https (t : Str) : dropScheme ("https://".data ++ t) = t := by
  unfold dropScheme
  rw [isPrefixOf_append_self]
  simp only [if_true]
  exact drop_len_append _ t 8 rfl

theorem dropScheme_github (x : Str) :
    dropScheme ("github.com/".data ++ x) = "github.com/".data ++ x := by
  unfold dropScheme
  rw [https_not_prefix_of_github, http_not_prefix_of_github]
  simp

theorem matchGithubUrl_github (x : Str) :
    matchGithubUrl ("github.com/".data ++ x) = githubTail ("github.com/".data ++ x) := by
  unfold matchGithubUrl
  rw [dropScheme_github, www_not_prefix_of_github]
  simp

theorem matchGithubUrl_https_github (x : Str) :
    matchGithubUrl ("https://".data ++ ("github.com/".data ++ x)) =
      githubTail ("github.com/".data ++ x) := by
  unfold matchGithubUrl
  rw [dropScheme_https, www_not_prefix_of_github]
  simp

theorem stripDotGit_of_not_suffix (r : Str) (h : ".git".data.isSuffixOf r = false) :
    stripDotGit r = r := by
  unfold stripDotGit
  rw [h]
  simp

theorem githubTail_two_segments (o r : Str) (ho : o ≠ []) (hr : r ≠ [])
    (hos : '/' ∉ o) (hrs : '/' ∉ r) :
    githubTail ("github.com/".data ++ (o ++ '/' :: r)) = some (o, stripDotGit r) := by
  unfold githubTail
  rw [isPrefixOf_append_self]
  simp only [if_true]
  rw [drop_len_append _ _ 11 (by decide), splitSlash_append o r hos, splitSlash_no_slash r hrs]
  have h1 : o.isEmpty = false := by
    cases o with
    | nil => exact absurd rfl ho
    | cons a t => rfl
  have h2 : r.isEmpty = false := by
    cases r with
    | nil => exact absurd rfl hr
    | cons a t => rfl
  simp [h1, h2]

theorem githubTail_single_slash (v : Str) (h : v.count '/' ≤ 1) : githubTail v = none := by
  unfold githubTail
  by_cases hp : "github.com/".data.isPrefixOf v
  · rw [hp]
    simp only [if_true]
    obtain ⟨t, ht⟩ := List.isPrefixOf_iff_prefix.mp hp
    have hdrop : v.drop 11 = t := by
      rw [← ht]
      exact drop_len_append _ _ 11 (by decide)
    have hcnt : ("github.com/".data).count '/' = 1 := by decide
    have h2 : v.count '/' = 1 + t.count '/' := by
      rw [← ht, List.count_append, hcnt]
    have hzero : t.count '/' = 0 := by omega
    have hns : '/' ∉ t := List.count_eq_zero.mp hzero
    rw [hdrop, splitSlash_no_slash t hns]
  · rw [Bool.not_eq_true] at hp
    rw [hp]
    simp

theorem matchGithubUrl_single_slash (u : Str) (h : u.count '/' ≤ 1) :
    matchGithubUrl u = none := by
  have hc : ∀ (n : Nat) (v : Str), v.count '/' ≤ 1 → (v.drop n).count '/' ≤ 1 :=
    fun n v hv => le_trans (count_drop_le '/' v n) hv
  have hX : (dropScheme u).count '/' ≤ 1 := by
    unfold dropScheme
    split
    · exact hc _ _ h
    · split
      · exact hc _ _ h
      · exact h
  unfold matchGithubUrl
  apply githubTail_single_slash
  split
  · exact hc _ _ hX
  · exact hX

theorem matchOwnerRepo_two_segments (o r : Str) (ho : o ≠ []) (hr : r ≠ [])
    (hos : '/' ∉ o) (hrs : '/' ∉ r) :
    matchOwnerRepo (o ++ '/' :: r) = some (o, r) := by
  unfold matchOwnerRepo
  rw [splitSlash_append o r hos, splitSlash_no_slash r hrs]
  have h1 : o.isEmpty = false := by
    cases o with
    | nil => exact absurd rfl ho
    | cons a t => rfl
  have h2 : r.isEmpty = false := by
    cases r with
    | nil => exact absurd rfl hr
    | cons a t => rfl
  simp [h1, h2]

/-- C2 (amended): the URL forms `https://github.com/o/r`, `github.com/o/r`
and the bare `o/r` parse to the identical `(o, r)` (for well-formed owner
and name: non-empty, slash-free, whitespace-free, name not ending in
`.git`), but the bare `o/r.git` form parses to `(o, "r.git")` — the
trailing `.git` is stripped only by the github.com URL regex, not by the
bare `owner/name` regex. -/
theorem C2_reference_normalization (o r : Str) (ho : o ≠ []) (hr : r ≠ [])
    (hos : '/' ∉ o) (hrs : '/' ∉ r)
    (how : ∀ c ∈ o, isPySpace c = false) (hrw : ∀ c ∈ r, isPySpace c = false)
    (hgit : ".git".data.isSuffixOf r = false) :
    parse_github_url ("https://github.com/".data ++ o ++ '/' :: r) = some (o, r) ∧
    parse_github_url ("github.com/".data ++ o ++ '/' :: r) = some (o, r) ∧
    parse_github_url (o ++ '/' :: r) = some (o, r) ∧
    parse_github_url (o ++ '/' :: (r ++ ".git".data)) = some (o, r ++ ".git".data) := by
  have hlast : ∀ c ∈ r, c ≠ '/' := fun c hc e => hrs (e ▸ hc)
  have hwsr : ∀ c ∈ ('/' :: r), isPySpace c = false := by
    intro c hc
    rcases List.mem_cons.mp hc with h | h
    · subst h
      rfl
    · exact hrw c h
  have hco : List.count '/' o = 0 := List.count_eq_zero.mpr hos
  have hcr : List.count '/' r = 0 := List.count_eq_zero.mpr hrs
  refine ⟨?_, ?_, ?_, ?_⟩
  · -- https://github.com/o/r
    have hall : ∀ c ∈ "https://github.com/".data ++ o ++ '/' :: r, isPySpace c = false :=
      forall_mem_append (forall_mem_append (by decide) how) hwsr
    have hmg : matchGithubUrl ("https://github.com/".data ++ o ++ '/' :: r) = some (o, r) := by
      have e0 : "https://github.com/".data = "https://".data ++ "github.com/".data := by decide
      have e : "https://github.com/".data ++ o ++ '/' :: r =
          "https://".data ++ ("github.com/".data ++ (o ++ '/' :: r)) := by
        rw [e0]
        simp [List.append_assoc]
      rw [e, matchGithubUrl_https_github, githubTail_two_segments o r ho hr hos hrs,
        stripDotGit_of_not_suffix r hgit]
    simp only [parse_github_url]
    rw [pyStrip_eq_self _ hall,
      rstripSlash_append_cons ("https://github.com/".data ++ o) r hr hlast, hmg]
  · -- github.com/o/r
    have hall : ∀ c ∈ "github.com/".data ++ o ++ '/' :: r, isPySpace c = false :=
      forall_mem_append (forall_mem_append (by decide) how) hwsr
    have hmg : matchGithubUrl ("github.com/".data ++ o ++ '/' :: r) = some (o, r) := by
      have e : "github.com/".data ++ o ++ '/' :: r =
          "github.com/".data ++ (o ++ '/' :: r) := by
        simp [List.append_assoc]
      rw [e, matchGithubUrl_github, githubTail_two_segments o r ho hr hos hrs,
        stripDotGit_of_not_suffix r hgit]
    simp only [parse_github_url]
    rw [pyStrip_eq_self _ hall,
      rstripSlash_append_cons ("github.com/".data ++ o) r hr hlast, hmg]
  · -- o/r
    have hall : ∀ c ∈ o ++ '/' :: r, isPySpace c = false := forall_mem_append how hwsr
    have hcnt : (o ++ '/' :: r).count '/' ≤ 1 := by
      rw [List.count_append, hco, List.count_cons_self, hcr]
    have hmg : matchGithubUrl (o ++ '/' :: r) = none := matchGithubUrl_single_slash _ hcnt
    simp only [parse_github_url]
    rw [pyStrip_eq_self _ hall, rstripSlash_append_cons o r hr hlast, hmg]
    exact matchOwnerRepo_two_segments o r ho hr hos hrs
  · -- o/r.git
    have hr' : r ++ ".git".data ≠ [] := by simp
    have hrs' : '/' ∉ r ++ ".git".data := by
      intro hm
      rcases List.mem_append.mp hm with h | h
      · exact hrs h
      · revert h
        decide
    have hlast' : ∀ c ∈ r ++ ".git".data, c ≠ '/' := fun c hc e => hrs' (e ▸ hc)
    have hwsr' : ∀ c ∈ ('/' :: (r ++ ".git".data)), isPySpace c = false := by
      intro c hc
      rcases List.mem_cons.mp hc with h | h
      · subst h
        rfl
      · exact forall_mem_append hrw (by decide) c h
    have hall : ∀ c ∈ o ++ '/' :: (r ++ ".git".data), isPySpace c = false :=
      forall_mem_append how hwsr'
    have hcnt : (o ++ '/' :: (r ++ ".git".data)).count '/' ≤ 1 := by
      have : List.count '/' (r ++ ".git".data) = 0 := List.count_eq_zero.mpr hrs'
      rw [List.count_append, hco, List.count_cons_self, this]
    have hmg : matchGithubUrl (o ++ '/' :: (r ++ ".git".data)) = none :=
      matchGithubUrl_single_slash _ hcnt
    simp only [parse_github_url]
    rw [pyStrip_eq_self _ hall, rstripSlash_append_cons o (r ++ ".git".data) hr' hlast', hmg]
    exact matchOwnerRepo_two_segments o (r ++ ".git".data) ho hr' hos hrs'

/-- C2 counterexample: for owner `acme` and name `widgets`, the bare form
`acme/widgets.git` parses to `(acme, widgets.git)` while the URL form
parses to `(acme, widgets)` — the four forms do not all yield the same
RepositoryReference. -/
theorem C2_reference_normalization_counterexample :
    parse_github_url "acme/widgets.git".data = some ("acme".data, "widgets.git".data) ∧
    parse_github_url "https://github.com/acme/widgets".data =
      some ("acme".data, "widgets".data) ∧
    ("widgets.git".data : Str) ≠ "widgets".data := by
  refine ⟨by decide, by decide, by decide⟩

theorem C2_reference_normalization_witness :
    parse_github_url ("https://github.com/".data ++ "acme".data ++ '/' :: "widgets".data) =
      some ("acme".data, "widgets".data) ∧
    parse_github_url ("acme".data ++ '/' :: ("widgets".data ++ ".git".data)) =
      some ("acme".data, "widgets".data ++ ".git".data) :=
  ⟨(C2_reference_normalization "acme".data "widgets".data (by decide) (by decide) (by decide)
      (by decide) (by decide) (by decide) (by decide)).1,
   (C2_reference_normalization "acme".data "widgets".data (by decide) (by decide) (by decide)
      (by decide) (by decide) (by decide) (by decide)).2.2.2⟩

theorem count_singleton_ne {a b : Str} (h : b ≠ a) : List.count a [b] = 0 := by
  rw [List.count_singleton]
  simp [h]

theorem collapse3_marker (p : Str) : "/...".data.isSuffixOf (collapse3 p) = true := by
  unfold collapse3
  rw [List.isSuffixOf_iff_suffix]
  exact List.suffix_append _ _

theorem dirStep_snd_mono (l : List Str) :
    ∀ acc : List Str × List Str, ∀ x ∈ acc.2, x ∈ (l.foldl dirStep acc).2 := by
  induction l with
  | nil => exact fun acc x hx => hx
  | cons q t ih =>
    intro acc x hx
    simp only [List.foldl_cons]
    apply ih
    unfold dirStep
    by_cases hd : pathDepth q ≤ 3
    · rw [if_pos hd]
      exact List.mem_append_left _ hx
    · rw [if_neg hd]
      by_cases hs : collapse3 q ∈ acc.1
      · rw [if_pos hs]
        exact hx
      · rw [if_neg hs]
        exact List.mem_append_left _ hx

theorem dirStep_preserves_subset (acc : List Str × List Str) (q : Str)
    (h : ∀ x ∈ acc.1, x ∈ acc.2) :
    ∀ x ∈ (dirStep acc q).1, x ∈ (dirStep acc q).2 := by
  intro x hx
  unfold dirStep at hx ⊢
  by_cases hd : pathDepth q ≤ 3
  · rw [if_pos hd] at hx ⊢
    exact List.mem_append_left _ (h x hx)
  · rw [if_neg hd] at hx ⊢
    by_cases hs : collapse3 q ∈ acc.1
    · rw [if_pos hs] at hx ⊢
      exact h x hx
    · rw [if_neg hs] at hx ⊢
      rcases List.mem_cons.mp hx with he | he
      · subst he
        exact List.mem_append_right _ (List.mem_singleton.mpr rfl)
      · exact List.mem_append_left _ (h x he)

theorem mem_buildFileList_shallow (l : List Str) :
    ∀ acc, ∀ p ∈ l, pathDepth p ≤ 3 → p ∈ (l.foldl dirStep acc).2 := by
  induction l with
  | nil =>
    intro acc p hp
    exact absurd hp (List.not_mem_nil p)
  | cons q t ih =>
    intro acc p hp hdep
    simp only [List.foldl_cons]
    rcases List.mem_cons.mp hp with h | h
    · subst h
      apply dirStep_snd_mono
      unfold dirStep
      rw [if_pos hdep]
      exact List.mem_append_right _ (List.mem_singleton.mpr rfl)
    · exact ih _ p h hdep

theorem mem_buildFileList_deep (l : List Str) :
    ∀ acc, (∀ x ∈ acc.1, x ∈ acc.2) → ∀ p ∈ l, ¬ pathDepth p ≤ 3 →
      collapse3 p ∈ (l.foldl dirStep acc).2 := by
  induction l with
  | nil =>
    intro acc _ p hp
    exact absurd hp (List.not_mem_nil p)
  | cons q t ih =>
    intro acc hsub p hp hdep
    simp only [List.foldl_cons]
    rcases List.mem_cons.mp hp with h | h
    · subst h
      apply dirStep_snd_mono
      unfold dirStep
      rw [if_neg hdep]
      by_cases hs : collapse3 p ∈ acc.1
      · rw [if_pos hs]
        exact hsub _ hs
      · rw [if_neg hs]
        exact List.mem_append_right _ (List.mem_singleton.mpr rfl)
    · exact ih _ (dirStep_preserves_subset acc q hsub) p h hdep

theorem dirStep_preserves_counts (acc : List Str × List Str) (q : Str)
    (hq : "/...".data.isSuffixOf q = false)
    (h3 : ∀ a ∈ acc.1, "/...".data.isSuffixOf a = true)
    (h1 : ∀ a ∈ acc.1, List.count a acc.2 = 1)
    (h2 : ∀ a, "/...".data.isSuffixOf a = true → a ∉ acc.1 → List.count a acc.2 = 0) :
    (∀ a ∈ (dirStep acc q).1, "/...".data.isSuffixOf a = true) ∧
    (∀ a ∈ (dirStep acc q).1, List.count a (dirStep acc q).2 = 1) ∧
    (∀ a, "/...".data.isSuffixOf a = true → a ∉ (dirStep acc q).1 →
      List.count a (dirStep acc q).2 = 0) := by
  unfold dirStep
  by_cases hd : pathDepth q ≤ 3
  · rw [if_pos hd]
    refine ⟨h3, ?_, ?_⟩
    · intro a ha
      have hm := h3 a ha
      have hne : q ≠ a := fun e => by
        rw [e] at hq
        rw [hq] at hm
        exact Bool.false_ne_true hm
      rw [List.count_append, h1 a ha, count_singleton_ne hne]
    · intro a ha hnot
      have hne : q ≠ a := fun e => by
        rw [e] at hq
        rw [ha] at hq
        exact Bool.false_ne_true hq.symm
      rw [List.count_append, h2 a ha hnot, count_singleton_ne hne]
  · rw [if_neg hd]
    by_cases hs : collapse3 q ∈ acc.1
    · rw [if_pos hs]
      exact ⟨h3, h1, h2⟩
    · rw [if_neg hs]
      have hcm := collapse3_marker q
      refine ⟨?_, ?_, ?_⟩
      · intro a ha
        rcases List.mem_cons.mp ha with he | he
        · subst he
          exact hcm
        · exact h3 a he
      · intro a ha
        rcases List.mem_cons.mp ha with he | he
        · subst he
          rw [List.count_append, h2 _ hcm hs, List.count_singleton]
          simp
        · have hne : collapse3 q ≠ a := fun e => hs (e ▸ he)
          rw [List.count_append, h1 a he, count_singleton_ne hne]
      · intro a ha hnot
        have hne : collapse3 q ≠ a := fun e =>
          hnot (e ▸ List.mem_cons_self (collapse3 q) acc.1)
        have hnot2 : a ∉ acc.1 := fun m => hnot (List.mem_cons_of_mem _ m)
        rw [List.count_append, h2 a ha hnot2, count_singleton_ne hne]

theorem foldl_counts (l : List Str) :
    ∀ acc, (∀ p ∈ l, "/...".data.isSuffixOf p = false) →
      (∀ a ∈ acc.1, "/...".data.isSuffixOf a = true) →
      (∀ a ∈ acc.1, List.count a acc.2 = 1) →
      (∀ a, "/...".data.isSuffixOf a = true → a ∉ acc.1 → List.count a acc.2 = 0) →
      ∀ a, "/...".data.isSuffixOf a = true →
        List.count a (l.foldl dirStep acc).2 ≤ 1 := by
  induction l with
  | nil =>
    intro acc _ h3 h1 h2 a ha
    by_cases hm : a ∈ acc.1
    · exact le_of_eq (h1 a hm)
    · simp [h2 a ha hm]
  | cons q t ih =>
    intro acc H h3 h1 h2 a ha
    simp only [List.foldl_cons]
    obtain ⟨g3, g1, g2⟩ :=
      dirStep_preserves_counts acc q (H q (List.mem_cons_self q t)) h3 h1 h2
    exact ih _ (fun p hp => H p (List.mem_cons_of_mem q hp)) g3 g1 g2 a ha

theorem newMarkers_cons (seen : List Str) (p : Str) (l : List Str) :
    newMarkers seen (p :: l) =
      if pathDepth p ≤ 3 then newMarkers seen l
      else if collapse3 p ∈ seen then newMarkers seen l
      else collapse3 p :: newMarkers (collapse3 p :: seen) l := rfl

theorem foldl_filter_markers (l : List Str) :
    ∀ acc : List Str × List Str, (∀ p ∈ l, "/...".data.isSuffixOf p = false) →
      (l.foldl dirStep acc).2.filter (fun a => "/...".data.isSuffixOf a) =
        acc.2.filter (fun a => "/...".data.isSuffixOf a) ++ newMarkers acc.1 l := by
  induction l with
  | nil =>
    intro acc _
    simp [newMarkers]
  | cons q t ih =>
    intro acc H
    have hq := H q (List.mem_cons_self q t)
    have Ht : ∀ p ∈ t, "/...".data.isSuffixOf p = false :=
      fun p hp => H p (List.mem_cons_of_mem q hp)
    simp only [List.foldl_cons]
    rw [ih _ Ht, newMarkers_cons]
    unfold dirStep
    by_cases hd : pathDepth q ≤ 3
    · rw [if_pos hd, if_pos hd]
      simp [List.filter_append, hq]
    · rw [if_neg hd, if_neg hd]
      by_cases hs : collapse3 q ∈ acc.1
      · rw [if_pos hs, if_pos hs]
      · rw [if_neg hs, if_neg hs]
        simp [List.filter_append, collapse3_marker q]

theorem insertLe_perm (x : Str) (l : List Str) : (insertLe x l).Perm (x :: l) := by
  induction l with
  | nil => exact List.Perm.refl _
  | cons y ys ih =>
    unfold insertLe
    by_cases h : strLe x y
    · rw [if_pos h]
    · rw [if_neg h]
      exact List.Perm.trans (List.Perm.cons y ih) (List.Perm.swap x y ys)

theorem sortPaths_perm (l : List Str) : (sortPaths l).Perm l := by
  induction l with
  | nil => exact List.Perm.refl _
  | cons a t ih =>
    simp only [sortPaths, List.foldr_cons]
    exact List.Perm.trans (insertLe_perm a _) (List.Perm.cons a ih)

/-- C5: the digest's directory listing is the 200-capped `file_list` built
from the lexicographically sorted paths; every path of depth at most 3
(slash count) enters the pre-cap list in full; every deeper path
contributes its collapsed first-3-segments ancestor with the `/...`
marker; each marker entry occurs at most once, and the marker entries
appear exactly as the first-seen deduplicated collapsed ancestors of the
deep paths in sorted order; the listing never exceeds 200 entries. -/
theorem C5_directory_listing (paths : List Str)
    (H : ∀ p ∈ paths, "/...".data.isSuffixOf p = false) :
    (dirListing paths).length ≤ 200 ∧
    dirListing paths = (buildFileList (sortPaths paths)).take 200 ∧
    (∀ p ∈ paths, pathDepth p ≤ 3 → p ∈ buildFileList (sortPaths paths)) ∧
    (∀ p ∈ paths, ¬ pathDepth p ≤ 3 →
      collapse3 p ∈ buildFileList (sortPaths paths) ∧
      "/...".data.isSuffixOf (collapse3 p) = true) ∧
    (∀ a, "/...".data.isSuffixOf a = true →
      List.count a (buildFileList (sortPaths paths)) ≤ 1) ∧
    (buildFileList (sortPaths paths)).filter (fun a => "/...".data.isSuffixOf a) =
      newMarkers [] (sortPaths paths) := by
  have hmem : ∀ p ∈ paths, p ∈ sortPaths paths :=
    fun p hp => (sortPaths_perm paths).mem_iff.mpr hp
  have Hs : ∀ p ∈ sortPaths paths, "/...".data.isSuffixOf p = false :=
    fun p hp => H p ((sortPaths_perm paths).mem_iff.mp hp)
  refine ⟨?_, rfl, ?_, ?_, ?_, ?_⟩
  · rw [dirListing, List.length_take]
    exact min_le_left _ _
  · intro p hp hd
    exact mem_buildFileList_shallow (sortPaths paths) ([], []) p (hmem p hp) hd
  · intro p hp hd
    exact ⟨mem_buildFileList_deep (sortPaths paths) ([], []) (by simp) p (hmem p hp) hd,
      collapse3_marker p⟩
  · intro a ha
    exact foldl_counts (sortPaths paths) ([], []) Hs (by simp) (by simp)
      (fun a _ _ => rfl) a ha
  · exact foldl_filter_markers (sortPaths paths) ([], []) Hs

theorem C5_directory_listing_witness :
    (dirListing demoPaths).length ≤ 200 ∧
    "src/index.ts".data ∈ buildFileList (sortPaths demoPaths) ∧
    collapse3 "docs/a/b/c/d.md".data ∈ buildFileList (sortPaths demoPaths) ∧
    List.count "docs/a/b/...".data (buildFileList (sortPaths demoPaths)) ≤ 1 :=
  ⟨(C5_directory_listing demoPaths (by decide)).1,
   (C5_directory_listing demoPaths (by decide)).2.2.1 "src/index.ts".data (by decide) (by decide),
   ((C5_directory_listing demoPaths (by decide)).2.2.2.1 "docs/a/b/c/d.md".data (by decide)
     (by decide)).1,
   (C5_directory_listing demoPaths (by decide)).2.2.2.2.1 "docs/a/b/...".data (by decide)⟩

theorem file_contents_go (net : Net) (tasks : List Str) :
    ∀ acc : List (Str × Str), tasks.Nodup → (∀ kv ∈ acc, kv.1 ∉ tasks) →
      tasks.foldl (fun acc p =>
        match fetchFile net p with
        | some c => dictInsert acc p c
        | none => acc) acc =
      acc ++ tasks.filterMap (fun p => (fetchFile net p).map (fun c => (p, c))) := by
  induction tasks with
  | nil =>
    intro acc _ _
    simp
  | cons q t ih =>
    intro acc hnd hdisj
    rcases List.nodup_cons.mp hnd with ⟨hqt, hndt⟩
    simp only [List.foldl_cons]
    cases hf : fetchFile net q with
    | none =>
      simp only [hf]
      rw [ih acc hndt (fun kv hkv hm => hdisj kv hkv (List.mem_cons_of_mem q hm))]
      simp [List.filterMap_cons, hf]
    | some c =>
      have hany : acc.any (fun kv => kv.1 == q) = false := by
        rw [List.any_eq_false]
        intro kv hkv
        simp only [beq_iff_eq]
        intro he
        exact hdisj kv hkv (he ▸ List.mem_cons_self q t)
      have hins : dictInsert acc q c = acc ++ [(q, c)] := by
        unfold dictInsert
        rw [hany]
        simp
      simp only [hf, hins]
      rw [ih (acc ++ [(q, c)]) hndt ?_]
      · simp [List.filterMap_cons, hf, List.append_assoc]
      · intro kv hkv
        rcases List.mem_append.mp hkv with h | h
        · exact fun hm => hdisj kv h (List.mem_cons_of_mem q hm)
        · rw [List.mem_singleton.mp h]
          exact hqt

theorem file_contents_filterMap (net : Net) (tasks : List Str) (h : tasks.Nodup) :
    file_contents net tasks =
      tasks.filterMap (fun p => (fetchFile net p).map (fun c => (p, c))) := by
  unfold file_contents
  rw [file_contents_go net tasks [] h (by simp)]
  simp

/-- C3: a metadata or tree fetch failure is terminal — `fetch_repo_context`
errors with the HTTP-status exception (no digest) and the handler answers
500; individual key-file fetch failures are tolerated — the digest still
renders, built from exactly the successfully fetched files (for distinct
task paths, the stored contents are precisely the successful fetches in
task order), with no error surfaced. -/
theorem C3_error_taxonomy (apiKey : Option Str) (llm : Str → Except Exc Str) (net : Net)
    (url : Str) :
    (∀ ow rp, parse_github_url url = some (ow, rp) → net.meta = none →
      (fetch_repo_context net url).1 = Except.error Exc.httpStatusError ∧
      (github_analyze apiKey llm net url).1 = 500) ∧
    (∀ ow rp m, parse_github_url url = some (ow, rp) → net.meta = some m → net.tree = none →
      (fetch_repo_context net url).1 = Except.error Exc.httpStatusError ∧
      (github_analyze apiKey llm net url).1 = 500) ∧
    (∀ ow rp m tr, parse_github_url url = some (ow, rp) → net.meta = some m →
      net.tree = some tr →
      (fetch_repo_context net url).1 =
        Except.ok (renderDigest ow rp m tr
          (file_contents net ((key_file_paths tr).take 10))) ∧
      (((key_file_paths tr).take 10).Nodup →
        file_contents net ((key_file_paths tr).take 10) =
          ((key_file_paths tr).take 10).filterMap
            (fun p => (fetchFile net p).map (fun c => (p, c))))) := by
  refine ⟨?_, ?_, ?_⟩
  · intro ow rp hp hm
    have hfe : fetch_repo_context net url = (Except.error Exc.httpStatusError, ["meta".data]) := by
      unfold fetch_repo_context
      rw [hp, hm]
    have h1 : (fetch_repo_context net url).1 = Except.error Exc.httpStatusError := by
      rw [hfe]
    refine ⟨h1, ?_⟩
    unfold github_analyze github_analyze_run
    rw [h1]
  · intro ow rp m hp hm ht
    have hfe : fetch_repo_context net url =
        (Except.error Exc.httpStatusError, ["meta".data, "tree".data]) := by
      unfold fetch_repo_context
      rw [hp, hm, ht]
    have h1 : (fetch_repo_context net url).1 = Except.error Exc.httpStatusError := by
      rw [hfe]
    refine ⟨h1, ?_⟩
    unfold github_analyze github_analyze_run
    rw [h1]
  · intro ow rp m tr hp hm ht
    constructor
    · simp only [fetch_repo_context, hp, hm, ht]
    · exact fun hnd => file_contents_filterMap net _ hnd

theorem C3_error_taxonomy_witness :
    (fetch_repo_context demoNet3 "a/b".data).1 =
      Except.ok (renderDigest "a".data "b".data
        ⟨some "d".data, some "main".data, some "py".data, some []⟩ demoTree3
        (file_contents demoNet3 ((key_file_paths demoTree3).take 10))) ∧
    (file_contents demoNet3 ((key_file_paths demoTree3).take 10)).length = 7 ∧
    (github_analyze none (fun _ => Except.ok []) demoNetMetaFail "a/b".data).1 = 500 :=
  ⟨((C3_error_taxonomy none (fun _ => Except.ok []) demoNet3 "a/b".data).2.2 "a".data "b".data
      ⟨some "d".data, some "main".data, some "py".data, some []⟩ demoTree3
      (by decide) rfl rfl).1,
   by decide,
   ((C3_error_taxonomy none (fun _ => Except.ok []) demoNetMetaFail "a/b".data).1 "a".data
      "b".data (by decide) rfl).2⟩
